import Mathlib

/-!
Verification development for the eurorack-synth-playground audio core:
the audio node abstraction (`src/audio/audio-node.ts`), the patch graph
manager (`src/audio/patch-manager.ts`), the module base class
(`src/modules/base-module.ts`) and the gain utilities
(`src/audio/gain-node.ts`), shallowly embedded as pure Lean functions.

Conventions of the embedding:
* JavaScript `Map`s are insertion-ordered association lists; `Map.get` is
  `find?` on the key, `Map.set` of a fresh key appends, `Map.delete`
  filters the key out, and in-place mutation of a stored value is a
  key-preserving `map` over the list.
* JavaScript numbers that the code only clamps and compares are modelled
  as rationals (`ℚ`); the transcendental decibel helpers are modelled in
  exact real arithmetic (`ℝ`).
* Exceptions become `Except`: an operation returns its result together
  with the state as it stands when the operation ends, which for every
  modelled throw site is the state at the moment of the throw (the source
  performs no mutation before any of its throws).
* The native Web Audio layer (`output.node.connect(...)` etc.) is outside
  the repository; each call that can hit it takes a `nativeOk : Bool`
  oracle saying whether the native call succeeds or throws.
* The source generates connection ids as `patch-` plus a random suffix
  and relies on their uniqueness; the model draws ids from a fresh
  counter (`nextId`), which realises exactly that uniqueness assumption.
-/

/-- `AudioParameter` from `src/audio/audio-node.ts`: a named bounded scalar. -/
structure AudioParameter where
  name : String
  value : ℚ
  minValue : ℚ
  maxValue : ℚ
  defaultValue : ℚ
  unit : Option String
deriving DecidableEq, Repr

/-- `AudioInput` from `src/audio/audio-node.ts`. The wrapped native
`AudioNode` handle is outside the repository and is not modelled. -/
structure AudioInput where
  name : String
  connected : Bool
deriving DecidableEq, Repr

/-- `AudioOutput` from `src/audio/audio-node.ts`. Its `connections` set
holds references to the attached target `AudioInput` objects; a reference
is modelled as the pair (target node id, input name), which identifies the
object uniquely in every registry whose node ids are unique. -/
structure AudioOutput where
  name : String
  connections : List (String × String)
deriving DecidableEq, Repr

/-- `EurorackAudioNode` from `src/audio/audio-node.ts` (data part).
The abstract hooks (`onParameterChange`, `onStart`, ...) only touch the
native layer and are not modelled. -/
structure EurorackAudioNode where
  id : String
  name : String
  inputs : List AudioInput
  outputs : List AudioOutput
  parameters : List AudioParameter
  isActive : Bool
deriving DecidableEq, Repr

/-- Errors thrown by `EurorackAudioNode` methods. Spec taxonomy:
`outputNotFound`/`inputNotFound` are `PortNotFoundError`,
`parameterNotFound` is `ParameterNotFoundError`, and `nativeFailure`
stands for a throw of the native Web Audio call. -/
inductive NodeErr where
  | outputNotFound (outputName : String) (nodeName : String)
  | inputNotFound (inputName : String) (nodeName : String)
  | parameterNotFound (name : String)
  | nativeFailure
deriving DecidableEq, Repr

/-- `getInput(name)` — `this.inputs.get(name)`. -/
def EurorackAudioNode.getInput (self : EurorackAudioNode) (nm : String) : Option AudioInput :=
  self.inputs.find? (fun i => i.name == nm)

/-- `getOutput(name)` — `this.outputs.get(name)`. -/
def EurorackAudioNode.getOutput (self : EurorackAudioNode) (nm : String) : Option AudioOutput :=
  self.outputs.find? (fun o => o.name == nm)

/-- `getParameter(name)` — `this.parameters.get(name)`. -/
def EurorackAudioNode.getParameter (self : EurorackAudioNode) (nm : String) : Option AudioParameter :=
  self.parameters.find? (fun p => p.name == nm)

/-- `setParameter(name, value)` from `src/audio/audio-node.ts` lines
404-413: looks the parameter up (throwing if absent), clamps the value to
`[minValue, maxValue]` via `Math.max(min, Math.min(max, value))` and
stores it. The `onParameterChange` hook only drives the native layer. -/
def EurorackAudioNode.setParameter (self : EurorackAudioNode) (nm : String) (value : ℚ) :
    Except NodeErr EurorackAudioNode :=
  match self.getParameter nm with
  | none => .error (.parameterNotFound nm)
  | some param =>
    let clampedValue := max param.minValue (min param.maxValue value)
    .ok { self with
          parameters := self.parameters.map
            (fun p => if p.name == nm then { p with value := clampedValue } else p) }

/-- In-place mutation `output.connections.add(targetInput)` on the output
named `outName` of a node (a `Set` add: inserting an already-present
reference changes nothing). -/
def EurorackAudioNode.addFanOut (self : EurorackAudioNode) (outName : String)
    (targetId : String) (inputName : String) : EurorackAudioNode :=
  { self with
    outputs := self.outputs.map (fun o =>
      if o.name == outName then
        { o with connections :=
            if (targetId, inputName) ∈ o.connections then o.connections
            else o.connections ++ [(targetId, inputName)] }
      else o) }

/-- In-place mutation `targetInput.connected = true` on the input named
`inName`. -/
def EurorackAudioNode.setInputConnected (self : EurorackAudioNode) (inName : String) :
    EurorackAudioNode :=
  { self with
    inputs := self.inputs.map (fun i =>
      if i.name == inName then { i with connected := true } else i) }

/-- In-place mutation `output.connections.delete(targetInput)`. -/
def EurorackAudioNode.removeFanOut (self : EurorackAudioNode) (outName : String)
    (targetId : String) (inputName : String) : EurorackAudioNode :=
  { self with
    outputs := self.outputs.map (fun o =>
      if o.name == outName then
        { o with connections := o.connections.filter (fun pr => pr != (targetId, inputName)) }
      else o) }

/-- In-place mutation `targetInput.connected = false`. -/
def EurorackAudioNode.clearInputConnected (self : EurorackAudioNode) (inName : String) :
    EurorackAudioNode :=
  { self with
    inputs := self.inputs.map (fun i =>
      if i.name == inName then { i with connected := false } else i) }

/-- `EurorackAudioNode.connect(outputName, target, inputName)` from
`src/audio/audio-node.ts` lines 417-435: locates the named output on
`self` and the named input on `target` (throwing `PortNotFoundError`
otherwise), performs the native link (oracle `nativeOk`) and on success
registers the fan-out entry and marks the input connected. It performs no
duplicate-input and no cycle validation. When the caller passes the same
object as `self` and `target` the two returned components describe the two
mutations of that one object; `PatchManager.connect` below applies the
same two mutations through the registry, which realises that aliasing. -/
def EurorackAudioNode.connect (self : EurorackAudioNode) (outputName : String)
    (target : EurorackAudioNode) (inputName : String) (nativeOk : Bool) :
    Except NodeErr (EurorackAudioNode × EurorackAudioNode) :=
  match self.getOutput outputName with
  | none => .error (.outputNotFound outputName self.name)
  | some _ =>
    match target.getInput inputName with
    | none => .error (.inputNotFound inputName target.name)
    | some _ =>
      if nativeOk then
        .ok (self.addFanOut outputName target.id inputName, target.setInputConnected inputName)
      else .error .nativeFailure

/-- The three-argument granularity of `EurorackAudioNode.disconnect`
(lines 437-477, final branch): port checks, then the native unlink
(oracle), then removal of the fan-out entry and clearing of the
`connected` flag. -/
def EurorackAudioNode.disconnectEdge (self : EurorackAudioNode) (outputName : String)
    (target : EurorackAudioNode) (inputName : String) (nativeOk : Bool) :
    Except NodeErr (EurorackAudioNode × EurorackAudioNode) :=
  match self.getOutput outputName with
  | none => .error (.outputNotFound outputName self.name)
  | some _ =>
    match target.getInput inputName with
    | none => .error (.inputNotFound inputName target.name)
    | some _ =>
      if nativeOk then
        .ok (self.removeFanOut outputName target.id inputName,
             target.clearInputConnected inputName)
      else .error .nativeFailure

/-- `PatchConnection` from `src/audio/patch-manager.ts`. The source id is
the string `patch-` plus a random suffix assumed unique; the model uses a
unique numeric token drawn from the manager's fresh counter. -/
structure PatchConnection where
  id : Nat
  sourceNodeId : String
  sourceOutput : String
  targetNodeId : String
  targetInput : String
  connected : Bool
deriving DecidableEq, Repr

/-- `PatchManagerConfig`: `maxConnections` is an optional number. -/
structure PatchManagerConfig where
  maxConnections : Option Nat
deriving DecidableEq, Repr

/-- `PatchManager` state: the node registry (`Map` id → node), the
connection ledger (`Map` id → connection, represented by its ordered list
of values) and the configured cap, plus the fresh-id counter that models
`generateConnectionId`. -/
structure PatchManager where
  nodes : List (String × EurorackAudioNode)
  connections : List PatchConnection
  maxConnections : Nat
  nextId : Nat
deriving DecidableEq, Repr

/-- Errors thrown by `PatchManager` methods. Spec taxonomy:
`duplicateNode` is `DuplicateNodeError`; `sourceNotFound` and
`targetNotFound` are the two `NodeNotFoundError` shapes (the source
messages name the role and the id); `inputAlreadyConnected` is
`InputAlreadyConnectedError`; `connectionLimit` is `ConnectionLimitError`;
`connectionFailed` is `ConnectionFailedError`, wrapping the node-level
cause; `connectionNotFound` is `ConnectionNotFoundError`. -/
inductive PMErr where
  | duplicateNode (id : String)
  | sourceNotFound (id : String)
  | targetNotFound (id : String)
  | inputAlreadyConnected (inputName : String) (nodeId : String)
  | connectionLimit (maxConnections : Nat)
  | connectionFailed (cause : NodeErr)
  | connectionNotFound (id : Nat)
deriving DecidableEq, Repr

/-- `this.nodes.get(nodeId)`. -/
def lookupNode (ns : List (String × EurorackAudioNode)) (nodeId : String) :
    Option EurorackAudioNode :=
  (ns.find? (fun p => p.1 == nodeId)).map (fun p => p.2)

/-- In-place mutation of the node stored under `nodeId` (keys untouched). -/
def updateNode (ns : List (String × EurorackAudioNode)) (nodeId : String)
    (f : EurorackAudioNode → EurorackAudioNode) : List (String × EurorackAudioNode) :=
  ns.map (fun p => if p.1 == nodeId then (p.1, f p.2) else p)

/-- `new PatchManager(config)` (lines 21-23):
`this.maxConnections = config.maxConnections || 1000`; both an absent and
a zero `maxConnections` are falsy in JavaScript, so both yield 1000. -/
def mkPatchManager (config : PatchManagerConfig) : PatchManager :=
  { nodes := []
    connections := []
    maxConnections :=
      match config.maxConnections with
      | none => 1000
      | some n => if n = 0 then 1000 else n
    nextId := 0 }

/-- `getNode(nodeId)`. -/
def PatchManager.getNode (pm : PatchManager) (nodeId : String) : Option EurorackAudioNode :=
  lookupNode pm.nodes nodeId

/-- `registerNode(node)` (lines 25-30): throws `DuplicateNodeError` if the
id is already registered, otherwise inserts. -/
def PatchManager.registerNode (pm : PatchManager) (node : EurorackAudioNode) :
    Except PMErr Unit × PatchManager :=
  if (lookupNode pm.nodes node.id).isSome then
    (.error (.duplicateNode node.id), pm)
  else
    (.ok (), { pm with nodes := pm.nodes ++ [(node.id, node)] })

/-- `getAllConnections()`. -/
def PatchManager.getAllConnections (pm : PatchManager) : List PatchConnection :=
  pm.connections

/-- `getConnection(connectionId)`. -/
def PatchManager.getConnection (pm : PatchManager) (cid : Nat) : Option PatchConnection :=
  pm.connections.find? (fun c => c.id == cid)

/-- `findConnectionToInput(nodeId, inputName)` (lines 171-175). -/
def PatchManager.findConnectionToInput (pm : PatchManager) (nodeId : String)
    (inputName : String) : Option PatchConnection :=
  pm.connections.find? (fun c => c.targetNodeId == nodeId && c.targetInput == inputName)

/-- `getOutputConnections(nodeId, outputName?)` (lines 157-162). -/
def PatchManager.getOutputConnections (pm : PatchManager) (nodeId : String)
    (outputName : Option String) : List PatchConnection :=
  pm.connections.filter (fun c =>
    c.sourceNodeId == nodeId &&
      (outputName.isNone || outputName == some c.sourceOutput))

/-- `getInputConnections(nodeId, inputName?)` (lines 164-169). -/
def PatchManager.getInputConnections (pm : PatchManager) (nodeId : String)
    (inputName : Option String) : List PatchConnection :=
  pm.connections.filter (fun c =>
    c.targetNodeId == nodeId &&
      (inputName.isNone || inputName == some c.targetInput))

/-- Stats record returned by `getStats()` (lines 263-273). -/
structure PatchStats where
  nodeCount : Nat
  connectionCount : Nat
  maxConnections : Nat
deriving DecidableEq, Repr

/-- `getStats()`. -/
def PatchManager.getStats (pm : PatchManager) : PatchStats :=
  { nodeCount := pm.nodes.length
    connectionCount := pm.connections.length
    maxConnections := pm.maxConnections }

/-- `PatchManager.connect(sourceNodeId, sourceOutput, targetNodeId,
targetInput)` (lines 53-103). Validation order: source registered, target
registered, target input free, ledger below the cap; then the node-level
mechanical connect runs inside `try` (any throw there — port not found or
native failure — is re-thrown as `ConnectionFailedError`), and only on
mechanical success the connection is recorded with `connected := true`.
The two node mutations are applied through the registry in source order,
which also realises the aliasing when source and target ids coincide. -/
def PatchManager.connect (pm : PatchManager) (sourceNodeId : String) (sourceOutput : String)
    (targetNodeId : String) (targetInput : String) (nativeOk : Bool) :
    Except PMErr Nat × PatchManager :=
  match lookupNode pm.nodes sourceNodeId with
  | none => (.error (.sourceNotFound sourceNodeId), pm)
  | some sourceNode =>
    match lookupNode pm.nodes targetNodeId with
    | none => (.error (.targetNotFound targetNodeId), pm)
    | some targetNode =>
      match pm.findConnectionToInput targetNodeId targetInput with
      | some _ => (.error (.inputAlreadyConnected targetInput targetNodeId), pm)
      | none =>
        if pm.maxConnections ≤ pm.connections.length then
          (.error (.connectionLimit pm.maxConnections), pm)
        else
          match EurorackAudioNode.connect sourceNode sourceOutput targetNode targetInput nativeOk with
          | .error e => (.error (.connectionFailed e), pm)
          | .ok _ =>
            let nodes1 := updateNode pm.nodes sourceNodeId
              (fun n => n.addFanOut sourceOutput targetNodeId targetInput)
            let nodes2 := updateNode nodes1 targetNodeId
              (fun n => n.setInputConnected targetInput)
            let conn : PatchConnection :=
              { id := pm.nextId
                sourceNodeId := sourceNodeId
                sourceOutput := sourceOutput
                targetNodeId := targetNodeId
                targetInput := targetInput
                connected := true }
            (.ok pm.nextId,
             { pm with
               nodes := nodes2
               connections := pm.connections ++ [conn]
               nextId := pm.nextId + 1 })

/-- `disconnect(connectionId)` (lines 105-123): throws
`ConnectionNotFoundError` if unknown; otherwise, if both endpoint nodes
still exist and the connection is marked connected, attempts the
mechanical disconnect — a failure there is only logged — and finally
removes the ledger entry regardless. -/
def PatchManager.disconnect (pm : PatchManager) (cid : Nat) (nativeOk : Bool) :
    Except PMErr Unit × PatchManager :=
  match pm.getConnection cid with
  | none => (.error (.connectionNotFound cid), pm)
  | some conn =>
    let nodesAfter :=
      match lookupNode pm.nodes conn.sourceNodeId, lookupNode pm.nodes conn.targetNodeId with
      | some sourceNode, some targetNode =>
        if conn.connected then
          match EurorackAudioNode.disconnectEdge sourceNode conn.sourceOutput targetNode
              conn.targetInput nativeOk with
          | .ok _ =>
            updateNode
              (updateNode pm.nodes conn.sourceNodeId
                (fun n => n.removeFanOut conn.sourceOutput conn.targetNodeId conn.targetInput))
              conn.targetNodeId
              (fun n => n.clearInputConnected conn.targetInput)
          | .error _ => pm.nodes
        else pm.nodes
      | _, _ => pm.nodes
    (.ok (), { pm with
               nodes := nodesAfter
               connections := pm.connections.filter (fun c => c.id != cid) })

/-- `disconnectAllForNode(nodeId)` (lines 125-141): collects the ids of
every connection touching the node, then disconnects each, swallowing
per-connection failures. -/
def PatchManager.disconnectAllForNode (pm : PatchManager) (nodeId : String)
    (nativeOk : Bool) : PatchManager :=
  let ids := (pm.connections.filter
    (fun c => c.sourceNodeId == nodeId || c.targetNodeId == nodeId)).map (fun c => c.id)
  ids.foldl (fun acc cid => (acc.disconnect cid nativeOk).2) pm

/-- `unregisterNode(nodeId)` (lines 32-43): a no-op when the id is absent;
otherwise cascades disconnection of every touching connection, then
removes the node from the registry. -/
def PatchManager.unregisterNode (pm : PatchManager) (nodeId : String) (nativeOk : Bool) :
    PatchManager :=
  match lookupNode pm.nodes nodeId with
  | none => pm
  | some _ =>
    let pm1 := pm.disconnectAllForNode nodeId nativeOk
    { pm1 with nodes := pm1.nodes.filter (fun p => p.1 != nodeId) }

/-- `clear()` (lines 248-261): disconnects every connection (best effort),
then empties the node registry. -/
def PatchManager.clear (pm : PatchManager) (nativeOk : Bool) : PatchManager :=
  let ids := pm.connections.map (fun c => c.id)
  let pm1 := ids.foldl (fun acc cid => (acc.disconnect cid nativeOk).2) pm
  { pm1 with nodes := [] }

/-- Inner loop of the cycle search: `outConnections.some(connection =>
hasPath(connection.targetNodeId, targetNodeId))` with the mutable visited
set threaded through the short-circuiting traversal. -/
def searchChildren (g : String → List String → Bool × List String) :
    List PatchConnection → List String → Bool × List String
  | [], visited => (false, visited)
  | c :: rest, visited =>
    let r := g c.targetNodeId visited
    if r.1 then r else searchChildren g rest r.2

/-- The recursive `hasPath` closure of `wouldCreateCycle` (lines 225-246):
return true on reaching the target, prune already-visited nodes, otherwise
mark the current node visited and search its outgoing connections. The
source recursion always terminates because the visited set grows; the
model makes that explicit with a fuel argument that
`PatchManager.wouldCreateCycle` instantiates large enough to never run
out (proved below). -/
def hasPathAux (conns : List PatchConnection) (target : String) :
    Nat → String → List String → Bool × List String
  | 0 => fun _ visited => (false, visited)
  | fuel + 1 => fun current visited =>
    if current = target then (true, visited)
    else if current ∈ visited then (false, visited)
    else
      searchChildren (hasPathAux conns target fuel)
        (conns.filter (fun c => c.sourceNodeId == current)) (current :: visited)

/-- `wouldCreateCycle(fromNodeId, toNodeId)` (lines 225-246): depth-first
reachability over the ledger, asking whether `fromNodeId` is already
reachable from `toNodeId`. The adjacency of a node is
`getOutputConnections(nodeId)` with no output filter, which is
`connections.filter (sourceNodeId == nodeId)`. -/
def PatchManager.wouldCreateCycle (pm : PatchManager) (fromNodeId : String)
    (toNodeId : String) : Bool :=
  (hasPathAux pm.connections fromNodeId (pm.connections.length + 2) toNodeId []).1

/-- Result record of `canConnect`. -/
structure CanConnectResult where
  canConnect : Bool
  reason : Option String
deriving DecidableEq, Repr

/-- Reason string of the source, built like `Source node '...' not found`. -/
def srcNotFoundReason (nodeId : String) : String :=
  "Source node \x27" ++ nodeId ++ "\x27 not found"

/-- Reason string `Target node '...' not found`. -/
def tgtNotFoundReason (nodeId : String) : String :=
  "Target node \x27" ++ nodeId ++ "\x27 not found"

/-- Reason string `Output '...' not found on source node`. -/
def outPortReason (outputName : String) : String :=
  "Output \x27" ++ outputName ++ "\x27 not found on source node"

/-- Reason string `Input '...' not found on target node`. -/
def inPortReason (inputName : String) : String :=
  "Input \x27" ++ inputName ++ "\x27 not found on target node"

/-- Reason string for an occupied input. -/
def occupiedReason : String :=
  "Target input is already connected"

/-- Reason string for the connection cap. -/
def limitReason : String :=
  "Maximum number of connections reached"

/-- Reason string for the cycle check. -/
def feedbackReason : String :=
  "Connection would create feedback loop"

/-- `canConnect(sourceNodeId, sourceOutput, targetNodeId, targetInput)`
(lines 184-222): the pure pre-flight check. It performs, in order, the
two node existence checks, the two port existence checks, the
single-producer check, the cap check, and the cycle check. It only reads
the registry and the ledger: in the model it is a function of the state
that returns no state, so it can mutate neither. -/
def PatchManager.canConnect (pm : PatchManager) (sourceNodeId : String) (sourceOutput : String)
    (targetNodeId : String) (targetInput : String) : CanConnectResult :=
  match lookupNode pm.nodes sourceNodeId with
  | none => { canConnect := false, reason := some (srcNotFoundReason sourceNodeId) }
  | some sourceNode =>
    match lookupNode pm.nodes targetNodeId with
    | none => { canConnect := false, reason := some (tgtNotFoundReason targetNodeId) }
    | some targetNode =>
      if (sourceNode.getOutput sourceOutput).isNone then
        { canConnect := false, reason := some (outPortReason sourceOutput) }
      else if (targetNode.getInput targetInput).isNone then
        { canConnect := false, reason := some (inPortReason targetInput) }
      else if (pm.findConnectionToInput targetNodeId targetInput).isSome then
        { canConnect := false, reason := some occupiedReason }
      else if pm.maxConnections ≤ pm.connections.length then
        { canConnect := false, reason := some limitReason }
      else if pm.wouldCreateCycle sourceNodeId targetNodeId then
        { canConnect := false, reason := some feedbackReason }
      else
        { canConnect := true, reason := none }

/-- One `PatchManager` operation, for reasoning about arbitrary call
sequences (the operations named by the spec invariant). Errors of an
operation leave the state as it stood at the throw. -/
inductive Op where
  | register (node : EurorackAudioNode)
  | connect (sourceNodeId : String) (sourceOutput : String)
      (targetNodeId : String) (targetInput : String) (nativeOk : Bool)
  | disconnect (cid : Nat) (nativeOk : Bool)
  | disconnectAll (nodeId : String) (nativeOk : Bool)
  | unregister (nodeId : String) (nativeOk : Bool)
  | clear (nativeOk : Bool)
deriving DecidableEq, Repr

/-- Apply one operation, keeping the resulting state (results and thrown
errors are discarded). -/
def applyOp (pm : PatchManager) : Op → PatchManager
  | .register node => (pm.registerNode node).2
  | .connect s so t ti ok => (pm.connect s so t ti ok).2
  | .disconnect cid ok => (pm.disconnect cid ok).2
  | .disconnectAll nodeId ok => pm.disconnectAllForNode nodeId ok
  | .unregister nodeId ok => pm.unregisterNode nodeId ok
  | .clear ok => pm.clear ok

/-- Run a sequence of operations from a freshly constructed manager. -/
def runOps (config : PatchManagerConfig) (ops : List Op) : PatchManager :=
  ops.foldl applyOp (mkPatchManager config)

/-- Single-producer-per-input: no two ledger entries share their
(target node id, target input) pair. -/
def AtMostOnePerInput (conns : List PatchConnection) : Prop :=
  conns.Pairwise (fun a b =>
    ¬(a.targetNodeId = b.targetNodeId ∧ a.targetInput = b.targetInput))

/-- Every ledger entry's endpoints are registered nodes. -/
def EndpointsRegistered (pm : PatchManager) : Prop :=
  ∀ c ∈ pm.connections,
    (lookupNode pm.nodes c.sourceNodeId).isSome ∧
    (lookupNode pm.nodes c.targetNodeId).isSome

/-- `BaseModule.dispose()` from `src/modules/base-module.ts` (lines
1164-1180), restricted to its effect on the patch manager: it unregisters
the module (cascading disconnection of all its edges), then performs the
base `EurorackAudioNode.dispose()` — whose only registry-visible effect
is `this.disconnect()`, clearing the `connected` flag of every input
still referenced by one of the module's output fan-out sets — and then
clears the module object's own UI lists, which no longer inhabit the
registry. -/
def disposeModule (pm : PatchManager) (moduleId : String) (nativeOk : Bool) : PatchManager :=
  let self := lookupNode pm.nodes moduleId
  let pm1 := pm.unregisterNode moduleId nativeOk
  match self with
  | none => pm1
  | some n =>
    { pm1 with
      nodes := n.outputs.foldl
        (fun acc o => o.connections.foldl
          (fun acc2 pr => updateNode acc2 pr.1 (fun m => m.clearInputConnected pr.2)) acc)
        pm1.nodes }

/-- `EurorackGainNode.dbToGain(db)` from `src/audio/gain-node.ts` lines
96-98: `Math.pow(10, db / 20)`, in exact real arithmetic. -/
noncomputable def dbToGain (db : ℝ) : ℝ :=
  (10 : ℝ) ^ (db / 20)

/-- `EurorackGainNode.gainToDb(gain)` from `src/audio/gain-node.ts` lines
100-102: `20 * Math.log10(Math.max(0.0001, gain))`, in exact real
arithmetic. -/
noncomputable def gainToDb (gain : ℝ) : ℝ :=
  20 * Real.logb 10 (max 0.0001 gain)

/-- `ModuleKnob` from `src/modules/base-module.ts`. -/
structure ModuleKnob where
  id : String
  parameterName : String
  label : String
  x : ℚ
  y : ℚ
  size : String
  style : String
  displayValue : Option Bool
deriving DecidableEq, Repr

/-- `ModuleSwitch` from `src/modules/base-module.ts`. -/
structure ModuleSwitch where
  id : String
  parameterName : String
  label : String
  x : ℚ
  y : ℚ
  type : String
  options : Option (List String)
deriving DecidableEq, Repr

/-- `ModuleLED` from `src/modules/base-module.ts`. -/
structure ModuleLED where
  id : String
  label : Option String
  x : ℚ
  y : ℚ
  color : String
  mode : String
  linkedParameter : Option String
deriving DecidableEq, Repr

/-- `ModuleDisplay` from `src/modules/base-module.ts`. -/
structure ModuleDisplay where
  id : String
  label : Option String
  x : ℚ
  y : ℚ
  width : ℚ
  height : ℚ
  type : String
  linkedParameter : Option String
deriving DecidableEq, Repr

/-- `ModuleJack` from `src/modules/base-module.ts`. -/
structure ModuleJack where
  id : String
  ioName : String
  label : String
  x : ℚ
  y : ℚ
  type : String
  signalType : String
  color : Option String
deriving DecidableEq, Repr

/-- A UI declaration object, the element type of the heap below. -/
inductive UIDecl where
  | knob (k : ModuleKnob)
  | moduleSwitch (s : ModuleSwitch)
  | led (l : ModuleLED)
  | display (d : ModuleDisplay)
  | jack (j : ModuleJack)
deriving DecidableEq, Repr

/-- The JavaScript object store for UI declarations: the lists inside a
module's `ModuleUI` hold references to the declaration objects, and a
reference is an address into this heap. -/
structure UIHeap where
  cells : List UIDecl
deriving DecidableEq, Repr

/-- `this.ui` of `BaseModule`: the six ordered lists of `ModuleUI`, each a
list of references to declaration objects. -/
structure BaseModuleUI where
  knobs : List Nat
  switches : List Nat
  leds : List Nat
  displays : List Nat
  inputs : List Nat
  outputs : List Nat
deriving DecidableEq, Repr

/-- `BaseModule.getUI()` from `src/modules/base-module.ts` lines
1067-1076: returns a new `ModuleUI` whose six lists are `[...xs]` spreads,
i.e. fresh arrays holding the same element references as the internal
lists. -/
def BaseModule.getUI (ui : BaseModuleUI) : BaseModuleUI :=
  { knobs := ui.knobs
    switches := ui.switches
    leds := ui.leds
    displays := ui.displays
    inputs := ui.inputs
    outputs := ui.outputs }

/-- `BaseModule.addKnob(knob)` (line 1078-1080): `this.ui.knobs.push(knob)`
— the caller's freshly built declaration object is allocated on the heap
and its reference appended to the internal list. -/
def BaseModule.addKnob (ui : BaseModuleUI) (h : UIHeap) (k : ModuleKnob) :
    BaseModuleUI × UIHeap :=
  ({ ui with knobs := ui.knobs ++ [h.cells.length] },
   { cells := h.cells ++ [UIDecl.knob k] })

/-- Overwrite the declaration object stored at a heap address: the model
of mutating one of the objects reachable from a `getUI()` result. -/
def UIHeap.write (h : UIHeap) (addr : Nat) (d : UIDecl) : UIHeap :=
  { cells := h.cells.set addr d }

/-- What a caller observes when reading a list of declaration references
through the heap. -/
def resolveRefs (h : UIHeap) (refs : List Nat) : List (Option UIDecl) :=
  refs.map (fun r => h.cells[r]?)

/-! ### Concrete fixtures used by witnesses and counterexamples -/

def idA : String := "A"

def idB : String := "B"

def idC : String := "C"

def idD : String := "D"

def idGhost : String := "ghost"

def outName : String := "output"

def inName : String := "input"

def levelName : String := "level"

/-- A free input port. -/
def inPort : AudioInput := { name := inName, connected := false }

/-- An output port with empty fan-out. -/
def outPort : AudioOutput := { name := outName, connections := [] }

/-- A bounded test parameter with range [0, 2]. -/
def levelParam : AudioParameter :=
  { name := levelName, value := 1, minValue := 0, maxValue := 2, defaultValue := 1, unit := none }

def nodeA : EurorackAudioNode :=
  { id := idA, name := idA, inputs := [inPort], outputs := [outPort],
    parameters := [], isActive := false }

def nodeB : EurorackAudioNode :=
  { id := idB, name := idB, inputs := [inPort], outputs := [outPort],
    parameters := [], isActive := false }

def nodeC : EurorackAudioNode :=
  { id := idC, name := idC, inputs := [inPort], outputs := [outPort],
    parameters := [], isActive := false }

def nodeD : EurorackAudioNode :=
  { id := idD, name := idD, inputs := [inPort], outputs := [outPort],
    parameters := [], isActive := false }

/-- A node carrying the [0,2] test parameter. -/
def paramNode : EurorackAudioNode :=
  { id := idC, name := idC, inputs := [], outputs := [],
    parameters := [levelParam], isActive := false }

/-- A copy of `nodeA` whose input is already marked connected (for the
node-level no-validation observation). -/
def nodeABusy : EurorackAudioNode :=
  { id := idA, name := idA, inputs := [{ name := inName, connected := true }],
    outputs := [outPort], parameters := [], isActive := false }

/-- Manager with `nodeA` and `nodeB` registered and no connections. -/
def pmAB : PatchManager :=
  (((mkPatchManager { maxConnections := none }).registerNode nodeA).2.registerNode nodeB).2

/-- `pmAB` after `connect(A, output, B, input)` succeeded. -/
def pmCycle1 : PatchManager :=
  (pmAB.connect idA outName idB inName true).2

/-- The ledger record of the first test connection. -/
def cAB : PatchConnection :=
  { id := 0, sourceNodeId := idA, sourceOutput := outName,
    targetNodeId := idB, targetInput := inName, connected := true }

/-- The ledger record of the cycle-closing test connection. -/
def cBA : PatchConnection :=
  { id := 1, sourceNodeId := idB, sourceOutput := outName,
    targetNodeId := idA, targetInput := inName, connected := true }

/-! ### C10 — default connection cap -/

/-- C10. Constructing a `PatchManager` with no `maxConnections` in its
config, and also with `maxConnections: 0` (the default is applied by a
falsy `||`), yields a configured maximum of 1000 as reported by
`getStats()`; the limit actually enforced by `connect` is that 1000, not
0: on a manager built with `maxConnections: 0` and an empty ledger a
`connect` succeeds rather than failing with `ConnectionLimitError`. -/
theorem default_connection_cap :
    (mkPatchManager { maxConnections := none }).getStats.maxConnections = 1000 ∧
    (mkPatchManager { maxConnections := some 0 }).getStats.maxConnections = 1000 ∧
    ((((mkPatchManager { maxConnections := some 0 }).registerNode nodeA).2.registerNode
        nodeB).2.connect idA outName idB inName true).1 = .ok 0 :=
  ⟨rfl, rfl, rfl⟩

/-! ### C6 — parameter clamping -/

/-- Updating the value of the parameter found under a name keeps it the
one found under that name (the update preserves names). -/
theorem find_map_value (l : List AudioParameter) (nm : String) (c : ℚ) (p : AudioParameter)
    (h : l.find? (fun q => q.name == nm) = some p) :
    (l.map (fun q => if q.name == nm then { q with value := c } else q)).find?
      (fun q => q.name == nm) = some { p with value := c } := by
  induction l with
  | nil => simp at h
  | cons a l ih =>
    simp only [List.find?_cons] at h
    cases h1 : (a.name == nm) with
    | true =>
      simp only [h1] at h
      simp only [Option.some.injEq] at h
      subst h
      simp only [List.map_cons, List.find?_cons, if_pos h1]
      have hname : (({ a with value := c } : AudioParameter).name == nm) = (a.name == nm) := rfl
      simp only [hname, h1]
    | false =>
      simp only [h1] at h
      simp only [List.map_cons, List.find?_cons,
        if_neg (by simp [h1] : ¬((a.name == nm) = true))]
      simp only [h1]
      exact ih h

/-- C6. For every node and parameter name: if a parameter is registered
under the name and its bounds satisfy `minValue ≤ maxValue`, then
`setParameter` succeeds and the stored value is the clamp
`max min (min max v)`, which lies within the bounds for every input
value; if no parameter is registered under the name, `setParameter`
throws `ParameterNotFoundError` (the source throws before any mutation,
so no parameter changes). -/
theorem setParameter_clamps (self : EurorackAudioNode) (nm : String) (v : ℚ) :
    (∀ p, self.getParameter nm = some p → p.minValue ≤ p.maxValue →
      ∃ self', self.setParameter nm v = .ok self' ∧
        self'.getParameter nm = some { p with value := max p.minValue (min p.maxValue v) } ∧
        p.minValue ≤ max p.minValue (min p.maxValue v) ∧
        max p.minValue (min p.maxValue v) ≤ p.maxValue) ∧
    (self.getParameter nm = none →
      self.setParameter nm v = .error (.parameterNotFound nm)) := by
  constructor
  · intro p hp hle
    have hset : self.setParameter nm v =
        .ok { self with parameters :=
          (self.parameters.map (fun q =>
            if q.name == nm then { q with value := max p.minValue (min p.maxValue v) }
            else q)) } := by
      unfold EurorackAudioNode.setParameter
      rw [hp]
    refine ⟨_, hset, ?_, le_max_left _ _, max_le hle (min_le_left _ _)⟩
    exact find_map_value self.parameters nm _ p hp
  · intro hnone
    unfold EurorackAudioNode.setParameter
    rw [hnone]

/-- Witness for C6 at the claim's own example: bounds [0,2], setting 5
stores 2 and setting -1 stores 0. -/
theorem setParameter_clamps_witness :
    (∃ self', paramNode.setParameter levelName 5 = .ok self' ∧
      self'.getParameter levelName = some { levelParam with value := 2 }) ∧
    (∃ self', paramNode.setParameter levelName (-1) = .ok self' ∧
      self'.getParameter levelName = some { levelParam with value := 0 }) := by
  constructor
  · obtain ⟨s', h1, h2, _, _⟩ :=
      (setParameter_clamps paramNode levelName 5).1 levelParam (by decide) (by decide)
    exact ⟨s', h1, by rw [h2]; decide⟩
  · obtain ⟨s', h1, h2, _, _⟩ :=
      (setParameter_clamps paramNode levelName (-1)).1 levelParam (by decide) (by decide)
    exact ⟨s', h1, by rw [h2]; decide⟩

/-! ### C2 — connect atomicity on mechanical failure -/

/-- C2. In any state where both endpoint nodes are registered, the target
input is free and the ledger is below the cap, a throw of the node-level
mechanical connect (native failure or port lookup, both rethrown by the
`try`/`catch`) makes `PatchManager.connect` fail with
`ConnectionFailedError` and return the manager exactly as it was: no
connection is recorded and the connection count is unchanged. -/
theorem connect_atomic_on_mech_failure (pm : PatchManager) (s so t ti : String)
    (nativeOk : Bool) (sNode tNode : EurorackAudioNode) (e : NodeErr)
    (hs : lookupNode pm.nodes s = some sNode)
    (ht : lookupNode pm.nodes t = some tNode)
    (hfree : pm.findConnectionToInput t ti = none)
    (hcap : pm.connections.length < pm.maxConnections)
    (hmech : EurorackAudioNode.connect sNode so tNode ti nativeOk = .error e) :
    pm.connect s so t ti nativeOk = (.error (.connectionFailed e), pm) := by
  simp only [PatchManager.connect, hs, ht, hfree, hmech]
  rw [if_neg (by omega)]

/-- Witness for C2: on `pmAB`, a native-failing connect between the two
registered free nodes fails with `ConnectionFailedError` and returns the
unchanged manager. -/
theorem connect_atomic_on_mech_failure_witness :
    pmAB.connect idA outName idB inName false =
      (.error (.connectionFailed .nativeFailure), pmAB) :=
  connect_atomic_on_mech_failure pmAB idA outName idB inName false nodeA nodeB
    .nativeFailure rfl rfl rfl (by decide) rfl

/-! ### C4 — deterministic validation order of connect -/

/-- C4. The first failing check among (1) source registered, (2) target
registered, (3) target input free, (4) count below the configured
maximum determines the error `connect` throws, in exactly that order:
`NodeNotFoundError` naming the source, `NodeNotFoundError` naming the
target, `InputAlreadyConnectedError`, `ConnectionLimitError`; each
failure leaves the state unchanged. -/
theorem connect_validation_order (pm : PatchManager) (s so t ti : String) (nativeOk : Bool) :
    (lookupNode pm.nodes s = none →
      pm.connect s so t ti nativeOk = (.error (.sourceNotFound s), pm)) ∧
    (∀ sNode, lookupNode pm.nodes s = some sNode → lookupNode pm.nodes t = none →
      pm.connect s so t ti nativeOk = (.error (.targetNotFound t), pm)) ∧
    (∀ sNode tNode c, lookupNode pm.nodes s = some sNode →
      lookupNode pm.nodes t = some tNode →
      pm.findConnectionToInput t ti = some c →
      pm.connect s so t ti nativeOk = (.error (.inputAlreadyConnected ti t), pm)) ∧
    (∀ sNode tNode, lookupNode pm.nodes s = some sNode →
      lookupNode pm.nodes t = some tNode →
      pm.findConnectionToInput t ti = none →
      pm.maxConnections ≤ pm.connections.length →
      pm.connect s so t ti nativeOk = (.error (.connectionLimit pm.maxConnections), pm)) := by
  refine ⟨?_, ?_, ?_, ?_⟩
  · intro hs
    simp only [PatchManager.connect, hs]
  · intro sNode hs ht
    simp only [PatchManager.connect, hs, ht]
  · intro sNode tNode c hs ht hocc
    simp only [PatchManager.connect, hs, ht, hocc]
  · intro sNode tNode hs ht hfree hcap
    simp only [PatchManager.connect, hs, ht, hfree]
    rw [if_pos hcap]

/-- Manager with only `nodeA` registered. -/
def pmOnlyA : PatchManager :=
  ((mkPatchManager { maxConnections := none }).registerNode nodeA).2

/-- Manager with cap 1, `nodeC` and `nodeD` registered, and the single
slot already used by the A-to-B connection of `pmAB` rebuilt under cap 1. -/
def pmAtCap : PatchManager :=
  (((((((mkPatchManager { maxConnections := some 1 }).registerNode nodeA).2.registerNode
    nodeB).2.registerNode nodeC).2.registerNode nodeD).2.connect
      idA outName idB inName true).2)

/-- Witness for C4: the four error shapes at concrete states — missing
source on an empty manager, missing target with the source present,
occupied input on `pmCycle1`, and the cap on a full `maxConnections: 1`
manager connecting a disjoint node pair. -/
theorem connect_validation_order_witness :
    ((mkPatchManager { maxConnections := none }).connect idA outName idB inName true =
      (.error (.sourceNotFound idA), mkPatchManager { maxConnections := none })) ∧
    (pmOnlyA.connect idA outName idB inName true =
      (.error (.targetNotFound idB), pmOnlyA)) ∧
    (pmCycle1.connect idA outName idB inName true =
      (.error (.inputAlreadyConnected inName idB), pmCycle1)) ∧
    (pmAtCap.connect idC outName idD inName true =
      (.error (.connectionLimit 1), pmAtCap)) :=
  ⟨(connect_validation_order (mkPatchManager { maxConnections := none })
      idA outName idB inName true).1 rfl,
   (connect_validation_order pmOnlyA idA outName idB inName true).2.1 _ rfl rfl,
   (connect_validation_order pmCycle1 idA outName idB inName true).2.2.1 _ _ cAB
      rfl rfl rfl,
   (connect_validation_order pmAtCap idC outName idD inName true).2.2.2 _ _
      rfl rfl rfl (by decide)⟩

/-! ### C5 — the cycle check is not enforced by connect -/

/-- C5. A reachable state in which `connect` closes a directed cycle
without any error: starting from an empty manager, register `A` and `B`,
connect `A.output → B.input`; then `connect(B, output, A, input)`
succeeds (no `FeedbackLoopError` — `connect` never runs the cycle check),
returns the fresh id, and records the connection, leaving the ledger with
the two-edge cycle `A→B→A`; the advisory `canConnect` on the same state
would have refused exactly that edge. The node-level
`EurorackAudioNode.connect` likewise performs no graph validation: it
succeeds even when the target input is already marked connected. -/
theorem connect_allows_cycle :
    (pmCycle1.connect idB outName idA inName true).1 = .ok 1 ∧
    (pmCycle1.connect idB outName idA inName true).2.connections = [cAB, cBA] ∧
    pmCycle1.canConnect idB outName idA inName =
      { canConnect := false, reason := some feedbackReason } ∧
    (EurorackAudioNode.connect nodeB outName nodeABusy inName true).isOk = true :=
  ⟨rfl, rfl, rfl, rfl⟩

/-! ### C9 — decibel round-trip and finite floor -/

/-- C9. In exact real arithmetic, `gainToDb (dbToGain x) = x` for every
`x` in the range [-40, 6] dB (the 0.0001 floor inside `gainToDb` is
below every gain in that range), and `gainToDb 0` is the finite floor
value -80 = 20·log10(0.0001) rather than negative infinity. -/
theorem gain_db_roundtrip (x : ℝ) (h1 : -40 ≤ x) (h2 : x ≤ 6) :
    gainToDb (dbToGain x) = x ∧ gainToDb 0 = -80 := by
  have h10 : (1 : ℝ) < 10 := by norm_num
  have hfloor : (0.0001 : ℝ) = (10 : ℝ) ^ (-4 : ℝ) := by
    rw [show ((-4 : ℝ)) = -((4 : ℕ) : ℝ) by norm_num]
    rw [Real.rpow_neg (by norm_num), Real.rpow_natCast]
    norm_num
  constructor
  · unfold gainToDb dbToGain
    have hx : (0.0001 : ℝ) ≤ (10 : ℝ) ^ (x / 20) := by
      rw [hfloor]
      apply (Real.rpow_le_rpow_left_iff h10).mpr
      linarith
    rw [max_eq_right hx, Real.logb_rpow (by norm_num) (by norm_num)]
    ring
  · unfold gainToDb
    rw [max_eq_left (by norm_num), hfloor, Real.logb_rpow (by norm_num) (by norm_num)]
    norm_num

/-- Witness for C9 at x = 0: a gain of 1 is 0 dB both ways. -/
theorem gain_db_roundtrip_witness : gainToDb (dbToGain 0) = 0 :=
  (gain_db_roundtrip 0 (by norm_num) (by norm_num)).1


/-! ### C8 — getUI copies are shallow, not deep -/

/-- A concrete knob declaration. -/
def knob0 : ModuleKnob :=
  { id := "cutoff-knob", parameterName := levelName, label := "Cutoff", x := 0, y := 0,
    size := "medium", style := "knob", displayValue := none }

/-- The same knob declaration after a caller mutates its label. -/
def knobMut : ModuleKnob :=
  { knob0 with label := "Changed" }

/-- Empty internal UI state. -/
def uiStart : BaseModuleUI :=
  { knobs := [], switches := [], leds := [], displays := [], inputs := [], outputs := [] }

/-- Internal UI state and heap of a module that declared one knob. -/
def uiWithKnob : BaseModuleUI × UIHeap :=
  BaseModule.addKnob uiStart { cells := [] } knob0

/-- Counterexample for C8: the claim that mutating an individual knob
object contained in the `getUI()` result leaves the module's internal UI
state unchanged is false. On a module with one knob, address 0 is
reachable from the `getUI()` result, and overwriting the declaration
object stored there changes what a subsequent read of the internal knob
list resolves to — `getUI` copies the arrays but shares the element
objects. -/
theorem getUI_not_deep_counterexample :
    0 ∈ (BaseModule.getUI uiWithKnob.1).knobs ∧
    resolveRefs (uiWithKnob.2.write 0 (UIDecl.knob knobMut))
        (BaseModule.getUI uiWithKnob.1).knobs ≠
      resolveRefs uiWithKnob.2 (BaseModule.getUI uiWithKnob.1).knobs := by
  decide

/-- C8 as amended: `getUI()` returns a structurally fresh `ModuleUI`
value whose six lists hold the same element references as the internal
state, so list-level changes to the copy cannot reach the module, but
mutating a declaration object at an address taken from the returned knob
list is visible to every subsequent read of the internal list (the
element objects are shared, not deep-copied). -/
theorem getUI_shallow_copies (ui : BaseModuleUI) (h : UIHeap) (addr : Nat) (d : UIDecl)
    (hmem : addr ∈ (BaseModule.getUI ui).knobs) (hlt : addr < h.cells.length)
    (hne : h.cells[addr]? ≠ some d) :
    BaseModule.getUI ui = ui ∧
    resolveRefs (h.write addr d) (BaseModule.getUI ui).knobs ≠ resolveRefs h ui.knobs ∧
    some d ∈ resolveRefs (h.write addr d) ui.knobs := by
  have heta : BaseModule.getUI ui = ui := rfl
  rw [heta] at hmem
  have hget : (h.write addr d).cells[addr]? = some d := by
    unfold UIHeap.write
    exact List.getElem?_set_self hlt
  refine ⟨heta, ?_, ?_⟩
  · rw [heta]
    unfold resolveRefs
    intro hEq
    have := (List.map_inj_left).1 hEq addr hmem
    rw [hget] at this
    exact hne this.symm
  · unfold resolveRefs
    rw [List.mem_map]
    exact ⟨addr, hmem, hget⟩

/-- Witness for C8-as-amended at the one-knob module. -/
theorem getUI_shallow_copies_witness :
    BaseModule.getUI uiWithKnob.1 = uiWithKnob.1 ∧
    resolveRefs (uiWithKnob.2.write 0 (UIDecl.knob knobMut))
        (BaseModule.getUI uiWithKnob.1).knobs ≠
      resolveRefs uiWithKnob.2 uiWithKnob.1.knobs ∧
    some (UIDecl.knob knobMut) ∈
      resolveRefs (uiWithKnob.2.write 0 (UIDecl.knob knobMut)) uiWithKnob.1.knobs :=
  getUI_shallow_copies uiWithKnob.1 uiWithKnob.2 0 (UIDecl.knob knobMut)
    (by decide) (by decide) (by decide)

/-! ### Ledger and registry lemmas for the cascade operations -/

/-- `disconnect` removes exactly the ledger entry carrying the given id
(and nothing when the id is absent). -/
theorem disconnect_connections (pm : PatchManager) (cid : Nat) (ok : Bool) :
    ((pm.disconnect cid ok).2).connections =
      pm.connections.filter (fun c => c.id != cid) := by
  cases hfind : pm.getConnection cid with
  | none =>
    unfold PatchManager.disconnect
    rw [hfind]
    refine (List.filter_eq_self.mpr ?_).symm
    intro c hc
    have hnp := List.find?_eq_none.mp hfind c hc
    cases h2 : (c.id == cid) with
    | true => exact absurd h2 hnp
    | false => simp [bne, h2]
  | some conn =>
    unfold PatchManager.disconnect
    rw [hfind]

/-- Folding `disconnect` over a list of ids removes exactly the entries
whose id lies in the list. -/
theorem foldl_disconnect_connections (L : List Nat) (ok : Bool) :
    ∀ pm : PatchManager,
      (L.foldl (fun acc cid => (acc.disconnect cid ok).2) pm).connections =
        pm.connections.filter (fun c => !(L.contains c.id)) := by
  induction L with
  | nil =>
    intro pm
    refine (List.filter_eq_self.mpr ?_).symm
    intro c _
    rfl
  | cons cid L ih =>
    intro pm
    rw [List.foldl_cons, ih, disconnect_connections, List.filter_filter]
    apply List.filter_congr
    intro c _
    simp only [bne, List.contains_cons, Bool.not_or]
    cases (c.id == cid) <;> cases L.contains c.id <;> rfl

/-- Bool-level membership bridge for `List.contains` on `Nat`. -/
theorem contains_iff_mem_nat {l : List Nat} {a : Nat} : l.contains a = true ↔ a ∈ l := by
  simp [List.contains_iff_exists_mem_beq]

/-- The cascade of `disconnectAllForNode` removes exactly the entries
touching the node (under ledger-id uniqueness, which the source `Map`
guarantees). -/
theorem disconnectAll_connections (pm : PatchManager) (nodeId : String) (ok : Bool)
    (hnd : (pm.connections.map (fun c => c.id)).Nodup) :
    (pm.disconnectAllForNode nodeId ok).connections =
      pm.connections.filter
        (fun c => !(c.sourceNodeId == nodeId || c.targetNodeId == nodeId)) := by
  unfold PatchManager.disconnectAllForNode
  rw [foldl_disconnect_connections]
  apply List.filter_congr
  intro c hc
  congr 1
  cases ht : (c.sourceNodeId == nodeId || c.targetNodeId == nodeId) with
  | true =>
    apply contains_iff_mem_nat.mpr
    exact List.mem_map_of_mem _ (List.mem_filter.mpr ⟨hc, ht⟩)
  | false =>
    rw [Bool.eq_false_iff]
    intro hcon
    obtain ⟨c', hc'mem, hc'id⟩ := List.mem_map.mp (contains_iff_mem_nat.mp hcon)
    have h1 := List.mem_filter.mp hc'mem
    have hcc : c' = c := List.inj_on_of_nodup_map hnd h1.1 hc hc'id
    rw [hcc, ht] at h1
    exact Bool.noConfusion h1.2

/-- `updateNode` preserves the registry keys. -/
theorem updateNode_keys (ns : List (String × EurorackAudioNode)) (k : String)
    (f : EurorackAudioNode → EurorackAudioNode) :
    (updateNode ns k f).map (fun p => p.1) = ns.map (fun p => p.1) := by
  unfold updateNode
  rw [List.map_map]
  apply List.map_congr_left
  intro p _
  cases hb : (p.1 == k) <;> simp [Function.comp, hb]

/-- `disconnect` preserves the registry keys. -/
theorem disconnect_nodes_keys (pm : PatchManager) (cid : Nat) (ok : Bool) :
    ((pm.disconnect cid ok).2).nodes.map (fun p => p.1) =
      pm.nodes.map (fun p => p.1) := by
  cases hfind : pm.getConnection cid with
  | none =>
    unfold PatchManager.disconnect
    rw [hfind]
  | some conn =>
    unfold PatchManager.disconnect
    rw [hfind]
    simp only []
    split
    · split
      · split
        · rw [updateNode_keys, updateNode_keys]
        · rfl
      · rfl
    · rfl

/-- Folding `disconnect` preserves the registry keys. -/
theorem foldl_disconnect_nodes_keys (L : List Nat) (ok : Bool) :
    ∀ pm : PatchManager,
      ((L.foldl (fun acc cid => (acc.disconnect cid ok).2) pm).nodes).map (fun p => p.1) =
        pm.nodes.map (fun p => p.1) := by
  induction L with
  | nil => intro pm; rfl
  | cons cid L ih => intro pm; rw [List.foldl_cons, ih, disconnect_nodes_keys]

/-- The inner fan-out-clearing fold of `disposeModule` preserves keys. -/
theorem clearFanOut_inner_keys (prs : List (String × String)) :
    ∀ ns : List (String × EurorackAudioNode),
      ((prs.foldl (fun acc2 pr =>
          updateNode acc2 pr.1 (fun m => m.clearInputConnected pr.2)) ns).map
        (fun p => p.1)) = ns.map (fun p => p.1) := by
  induction prs with
  | nil => intro ns; rfl
  | cons pr prs ih => intro ns; rw [List.foldl_cons, ih, updateNode_keys]

/-- The outer fan-out-clearing fold of `disposeModule` preserves keys. -/
theorem clearFanOut_keys (outs : List AudioOutput) :
    ∀ ns : List (String × EurorackAudioNode),
      ((outs.foldl (fun acc o => o.connections.foldl
          (fun acc2 pr => updateNode acc2 pr.1 (fun m => m.clearInputConnected pr.2)) acc)
          ns).map (fun p => p.1)) = ns.map (fun p => p.1) := by
  induction outs with
  | nil => intro ns; rfl
  | cons o outs ih => intro ns; rw [List.foldl_cons, ih, clearFanOut_inner_keys]

/-- A registry lookup misses exactly when the key is absent. -/
theorem lookupNode_eq_none_iff (ns : List (String × EurorackAudioNode)) (e : String) :
    lookupNode ns e = none ↔ e ∉ ns.map (fun p => p.1) := by
  unfold lookupNode
  rw [Option.map_eq_none', List.find?_eq_none]
  constructor
  · intro h hm
    obtain ⟨p, hp, he⟩ := List.mem_map.mp hm
    exact h p hp (by simp [he])
  · intro h p hp hbeq
    exact h (List.mem_map.mpr ⟨p, hp, by simpa using hbeq⟩)

/-- Under unique ledger ids, a find-by-id over a filtered ledger misses
every entry the filter rejected. -/
theorem find?_filter_id_none (l : List PatchConnection) (q : PatchConnection → Bool)
    (c : PatchConnection) (hnd : (l.map (fun c => c.id)).Nodup) (hc : c ∈ l)
    (hq : q c = false) :
    (l.filter q).find? (fun x => x.id == c.id) = none := by
  rw [List.find?_eq_none]
  intro c' hc' hbeq
  have h1 := List.mem_filter.mp hc'
  have hcc : c' = c := List.inj_on_of_nodup_map hnd h1.1 hc (by simpa using hbeq)
  rw [hcc, hq] at h1
  exact Bool.noConfusion h1.2

/-- Under unique ledger ids, a find-by-id over a filtered ledger returns
exactly the surviving entry with that id. -/
theorem find?_filter_id_some (l : List PatchConnection) (q : PatchConnection → Bool)
    (c : PatchConnection) (hnd : (l.map (fun c => c.id)).Nodup) (hc : c ∈ l)
    (hq : q c = true) :
    (l.filter q).find? (fun x => x.id == c.id) = some c := by
  induction l with
  | nil => exact absurd hc (List.not_mem_nil c)
  | cons a l ih =>
    rw [List.map_cons, List.nodup_cons] at hnd
    rcases List.mem_cons.mp hc with hca | hcl
    · subst hca
      rw [List.filter_cons, if_pos hq]
      exact List.find?_cons_of_pos _ (by simp)
    · have hane : (a.id == c.id) = false := by
        rw [beq_eq_false_iff_ne]
        intro he
        exact hnd.1 (he ▸ List.mem_map_of_mem _ hcl)
      rw [List.filter_cons]
      cases hqa : q a with
      | true =>
        rw [if_pos rfl]
        rw [List.find?_cons_of_neg _ (by simp [hane])]
        exact ih hnd.2 hcl
      | false =>
        rw [if_neg (by simp)]
        exact ih hnd.2 hcl

/-! ### C7 — module dispose cascade -/

/-- C7. For every registered module, `dispose()` (which first calls
`unregisterNode`) removes the module's id from the registry —
`getNode` returns nothing afterwards — and cascades removal of every
ledger entry that referenced the module as source or target, while every
connection not touching the module survives unchanged in the ledger.
Stated under ledger-id uniqueness, which the source `Map` keyed by id
guarantees. -/
theorem dispose_cascade (pm : PatchManager) (moduleId : String) (nativeOk : Bool)
    (hreg : (pm.getNode moduleId).isSome)
    (hnd : (pm.connections.map (fun c => c.id)).Nodup) :
    (disposeModule pm moduleId nativeOk).getNode moduleId = none ∧
    (∀ c ∈ pm.connections, (c.sourceNodeId = moduleId ∨ c.targetNodeId = moduleId) →
      (disposeModule pm moduleId nativeOk).getConnection c.id = none) ∧
    (∀ c ∈ pm.connections, c.sourceNodeId ≠ moduleId → c.targetNodeId ≠ moduleId →
      (disposeModule pm moduleId nativeOk).getConnection c.id = some c) := by
  obtain ⟨n, hn⟩ := Option.isSome_iff_exists.mp hreg
  have hn' : lookupNode pm.nodes moduleId = some n := hn
  have hu : pm.unregisterNode moduleId nativeOk =
      { pm.disconnectAllForNode moduleId nativeOk with
        nodes := (pm.disconnectAllForNode moduleId nativeOk).nodes.filter
          (fun p => p.1 != moduleId) } := by
    unfold PatchManager.unregisterNode
    rw [hn']
  have hd : disposeModule pm moduleId nativeOk =
      { pm.unregisterNode moduleId nativeOk with
        nodes := n.outputs.foldl
          (fun acc o => o.connections.foldl
            (fun acc2 pr => updateNode acc2 pr.1 (fun m => m.clearInputConnected pr.2)) acc)
          (pm.unregisterNode moduleId nativeOk).nodes } := by
    unfold disposeModule
    rw [hn']
  have hconn : (disposeModule pm moduleId nativeOk).connections =
      pm.connections.filter
        (fun c => !(c.sourceNodeId == moduleId || c.targetNodeId == moduleId)) := by
    rw [hd]
    show (pm.unregisterNode moduleId nativeOk).connections = _
    rw [hu]
    show (pm.disconnectAllForNode moduleId nativeOk).connections = _
    exact disconnectAll_connections pm moduleId nativeOk hnd
  refine ⟨?_, ?_, ?_⟩
  · show lookupNode (disposeModule pm moduleId nativeOk).nodes moduleId = none
    rw [lookupNode_eq_none_iff, hd]
    show moduleId ∉ List.map _ (n.outputs.foldl _ (pm.unregisterNode moduleId nativeOk).nodes)
    rw [clearFanOut_keys, hu]
    intro hm
    obtain ⟨p, hp, he⟩ := List.mem_map.mp hm
    have h1 := List.mem_filter.mp hp
    have : (p.1 != moduleId) = true := h1.2
    rw [he] at this
    simp [bne] at this
  · intro c hc htouch
    show ((disposeModule pm moduleId nativeOk).connections).find? (fun x => x.id == c.id) = none
    rw [hconn]
    apply find?_filter_id_none pm.connections _ c hnd hc
    rcases htouch with h | h <;> simp [h]
  · intro c hc hsrc htgt
    show ((disposeModule pm moduleId nativeOk).connections).find? (fun x => x.id == c.id) = some c
    rw [hconn]
    apply find?_filter_id_some pm.connections _ c hnd hc
    simp [hsrc, htgt]

/-- Manager with A, B, C, D registered and connections A→B (id 0) and
C→D (id 1). -/
def pmFour : PatchManager :=
  (((((((mkPatchManager { maxConnections := none }).registerNode nodeA).2.registerNode
    nodeB).2.registerNode nodeC).2.registerNode nodeD).2.connect
      idA outName idB inName true).2.connect idC outName idD inName true).2

/-- The ledger record of the C→D connection of `pmFour`. -/
def cCD : PatchConnection :=
  { id := 1, sourceNodeId := idC, sourceOutput := outName,
    targetNodeId := idD, targetInput := inName, connected := true }

/-- Witness for C7: disposing B on `pmFour` removes B from the registry
and the touching connection id 0 from the ledger, while the untouched
connection id 1 survives. -/
theorem dispose_cascade_witness :
    (disposeModule pmFour idB true).getNode idB = none ∧
    (disposeModule pmFour idB true).getConnection 0 = none ∧
    (disposeModule pmFour idB true).getConnection 1 = some cCD := by
  have h := dispose_cascade pmFour idB true (by decide) (by decide)
  exact ⟨h.1, h.2.1 cAB (by decide) (by decide), h.2.2 cCD (by decide) (by decide) (by decide)⟩

/-! ### C1 — single-producer invariant machinery -/

/-- The state invariant the trace theorems establish: single producer per
input, and every ledger entry's endpoints registered. -/
def PMInv (pm : PatchManager) : Prop :=
  AtMostOnePerInput pm.connections ∧ EndpointsRegistered pm

/-- A registry lookup hits exactly when the key is present. -/
theorem lookupNode_isSome_keys (ns : List (String × EurorackAudioNode)) (e : String) :
    (lookupNode ns e).isSome ↔ e ∈ ns.map (fun p => p.1) := by
  rw [← Option.ne_none_iff_isSome]
  constructor
  · intro h
    by_contra hm
    exact h ((lookupNode_eq_none_iff ns e).mpr hm)
  · intro hm h
    exact (lookupNode_eq_none_iff ns e).mp h hm

/-- Lookup success transfers between registries with the same keys. -/
theorem lookup_isSome_keys_eq {ns ns' : List (String × EurorackAudioNode)}
    (hk : ns'.map (fun p => p.1) = ns.map (fun p => p.1)) (e : String) :
    (lookupNode ns e).isSome → (lookupNode ns' e).isSome := by
  rw [lookupNode_isSome_keys, lookupNode_isSome_keys, hk]
  exact id

/-- Lookup success survives appending entries. -/
theorem lookup_isSome_append (ns l2 : List (String × EurorackAudioNode)) (e : String) :
    (lookupNode ns e).isSome → (lookupNode (ns ++ l2) e).isSome := by
  rw [lookupNode_isSome_keys, lookupNode_isSome_keys, List.map_append]
  exact List.mem_append_left _

/-- Lookup success survives deleting a different key. -/
theorem lookup_isSome_filter_ne (ns : List (String × EurorackAudioNode))
    (nodeId e : String) (hne : e ≠ nodeId) :
    (lookupNode ns e).isSome →
      (lookupNode (ns.filter (fun p => p.1 != nodeId)) e).isSome := by
  rw [lookupNode_isSome_keys, lookupNode_isSome_keys]
  intro hm
  obtain ⟨p, hp, he⟩ := List.mem_map.mp hm
  exact List.mem_map.mpr
    ⟨p, List.mem_filter.mpr ⟨hp, by simp [bne, he, hne]⟩, he⟩

/-- Case analysis of `connect`: either the state is untouched (one of the
validations or the mechanical step failed), or all validations passed and
the state gained exactly the new connection plus the two node
mutations. -/
theorem connect_state_cases (pm : PatchManager) (s so t ti : String) (ok : Bool) :
    (pm.connect s so t ti ok).2 = pm ∨
    (pm.findConnectionToInput t ti = none ∧
     (lookupNode pm.nodes s).isSome ∧ (lookupNode pm.nodes t).isSome ∧
     (pm.connect s so t ti ok).2 =
       { pm with
         nodes := updateNode (updateNode pm.nodes s (fun n => n.addFanOut so t ti)) t
           (fun n => n.setInputConnected ti)
         connections := pm.connections ++
           [{ id := pm.nextId, sourceNodeId := s, sourceOutput := so,
              targetNodeId := t, targetInput := ti, connected := true }]
         nextId := pm.nextId + 1 }) := by
  cases hs : lookupNode pm.nodes s with
  | none => left; simp only [PatchManager.connect, hs]
  | some sN =>
    cases ht : lookupNode pm.nodes t with
    | none => left; simp only [PatchManager.connect, hs, ht]
    | some tN =>
      cases hocc : pm.findConnectionToInput t ti with
      | some c => left; simp only [PatchManager.connect, hs, ht, hocc]
      | none =>
        by_cases hcap : pm.maxConnections ≤ pm.connections.length
        · left
          simp only [PatchManager.connect, hs, ht, hocc, if_pos hcap]
        · cases hmech : EurorackAudioNode.connect sN so tN ti ok with
          | error e =>
            left
            simp only [PatchManager.connect, hs, ht, hocc, if_neg hcap, hmech]
          | ok pr =>
            right
            refine ⟨rfl, rfl, rfl, ?_⟩
            simp only [PatchManager.connect, hs, ht, hocc, if_neg hcap, hmech]

/-- `registerNode` preserves the invariant. -/
theorem inv_register (pm : PatchManager) (node : EurorackAudioNode) (h : PMInv pm) :
    PMInv (pm.registerNode node).2 := by
  unfold PatchManager.registerNode
  by_cases hs : (lookupNode pm.nodes node.id).isSome
  · rw [if_pos hs]
    exact h
  · rw [if_neg hs]
    refine ⟨h.1, ?_⟩
    intro c hc
    have hold := h.2 c hc
    exact ⟨lookup_isSome_append _ _ _ hold.1, lookup_isSome_append _ _ _ hold.2⟩

/-- `connect` preserves the invariant. -/
theorem inv_connect (pm : PatchManager) (s so t ti : String) (ok : Bool) (h : PMInv pm) :
    PMInv (pm.connect s so t ti ok).2 := by
  rcases connect_state_cases pm s so t ti ok with heq | ⟨hocc, hsS, htS, heq⟩
  · rw [heq]; exact h
  · rw [heq]
    have hkeys : (updateNode (updateNode pm.nodes s (fun n => n.addFanOut so t ti)) t
        (fun n => n.setInputConnected ti)).map (fun p => p.1) =
        pm.nodes.map (fun p => p.1) := by
      rw [updateNode_keys, updateNode_keys]
    constructor
    · refine List.pairwise_append.mpr ⟨h.1, List.pairwise_singleton _ _, ?_⟩
      intro a ha b hb
      rw [List.mem_singleton] at hb
      subst hb
      rintro ⟨h1, h2⟩
      exact List.find?_eq_none.mp hocc a ha (by simp [h1, h2])
    · intro c hc
      rcases List.mem_append.mp hc with hold | hnew
      · have he := h.2 c hold
        exact ⟨lookup_isSome_keys_eq hkeys _ he.1, lookup_isSome_keys_eq hkeys _ he.2⟩
      · rw [List.mem_singleton] at hnew
        subst hnew
        exact ⟨lookup_isSome_keys_eq hkeys _ hsS, lookup_isSome_keys_eq hkeys _ htS⟩

/-- `disconnect` preserves the invariant. -/
theorem inv_disconnect (pm : PatchManager) (cid : Nat) (ok : Bool) (h : PMInv pm) :
    PMInv (pm.disconnect cid ok).2 := by
  constructor
  · show AtMostOnePerInput ((pm.disconnect cid ok).2).connections
    rw [disconnect_connections]
    exact List.Pairwise.sublist (List.filter_sublist _) h.1
  · intro c hc
    rw [disconnect_connections] at hc
    have hold := h.2 c (List.mem_of_mem_filter hc)
    have hk := disconnect_nodes_keys pm cid ok
    exact ⟨lookup_isSome_keys_eq hk _ hold.1, lookup_isSome_keys_eq hk _ hold.2⟩

/-- Folding `disconnect` preserves the invariant. -/
theorem inv_foldl_disconnect (L : List Nat) (ok : Bool) :
    ∀ pm : PatchManager, PMInv pm →
      PMInv (L.foldl (fun acc cid => (acc.disconnect cid ok).2) pm) := by
  induction L with
  | nil => intro pm h; exact h
  | cons cid L ih =>
    intro pm h
    rw [List.foldl_cons]
    exact ih _ (inv_disconnect pm cid ok h)

/-- `disconnectAllForNode` preserves the invariant. -/
theorem inv_disconnectAll (pm : PatchManager) (nodeId : String) (ok : Bool) (h : PMInv pm) :
    PMInv (pm.disconnectAllForNode nodeId ok) := by
  unfold PatchManager.disconnectAllForNode
  exact inv_foldl_disconnect _ ok pm h

/-- After the cascade of `disconnectAllForNode`, no surviving entry
touches the node. -/
theorem disconnectAll_no_touch (pm : PatchManager) (nodeId : String) (ok : Bool) :
    ∀ c ∈ (pm.disconnectAllForNode nodeId ok).connections,
      c.sourceNodeId ≠ nodeId ∧ c.targetNodeId ≠ nodeId := by
  intro c hc
  unfold PatchManager.disconnectAllForNode at hc
  rw [foldl_disconnect_connections] at hc
  have h1 := List.mem_filter.mp hc
  constructor <;> intro he
  · have : c ∈ pm.connections.filter
        (fun c => c.sourceNodeId == nodeId || c.targetNodeId == nodeId) :=
      List.mem_filter.mpr ⟨h1.1, by simp [he]⟩
    have hidmem : c.id ∈ (pm.connections.filter
        (fun c => c.sourceNodeId == nodeId || c.targetNodeId == nodeId)).map
        (fun c => c.id) := List.mem_map_of_mem _ this
    rw [contains_iff_mem_nat.mpr hidmem] at h1
    exact Bool.noConfusion h1.2
  · have : c ∈ pm.connections.filter
        (fun c => c.sourceNodeId == nodeId || c.targetNodeId == nodeId) :=
      List.mem_filter.mpr ⟨h1.1, by simp [he]⟩
    have hidmem : c.id ∈ (pm.connections.filter
        (fun c => c.sourceNodeId == nodeId || c.targetNodeId == nodeId)).map
        (fun c => c.id) := List.mem_map_of_mem _ this
    rw [contains_iff_mem_nat.mpr hidmem] at h1
    exact Bool.noConfusion h1.2

/-- `unregisterNode` preserves the invariant. -/
theorem inv_unregister (pm : PatchManager) (nodeId : String) (ok : Bool) (h : PMInv pm) :
    PMInv (pm.unregisterNode nodeId ok) := by
  unfold PatchManager.unregisterNode
  cases hs : lookupNode pm.nodes nodeId with
  | none => exact h
  | some n =>
    have h1 := inv_disconnectAll pm nodeId ok h
    constructor
    · exact h1.1
    · intro c hc
      have hends := h1.2 c hc
      have hnt := disconnectAll_no_touch pm nodeId ok c hc
      exact ⟨lookup_isSome_filter_ne _ _ _ hnt.1 hends.1,
             lookup_isSome_filter_ne _ _ _ hnt.2 hends.2⟩

/-- `clear` empties the ledger. -/
theorem clear_connections (pm : PatchManager) (ok : Bool) :
    (pm.clear ok).connections = [] := by
  show (List.foldl (fun acc cid => (acc.disconnect cid ok).2) pm
    (pm.connections.map (fun c => c.id))).connections = []
  rw [foldl_disconnect_connections]
  rw [List.filter_eq_nil_iff]
  intro c hc
  rw [contains_iff_mem_nat.mpr (List.mem_map_of_mem _ hc)]
  exact Bool.noConfusion

/-- `clear` preserves the invariant. -/
theorem inv_clear (pm : PatchManager) (ok : Bool) (h : PMInv pm) : PMInv (pm.clear ok) := by
  constructor
  · show AtMostOnePerInput (pm.clear ok).connections
    rw [clear_connections]
    exact List.Pairwise.nil
  · intro c hc
    rw [clear_connections] at hc
    cases hc

/-- Every operation preserves the invariant. -/
theorem applyOp_inv (pm : PatchManager) (op : Op) (h : PMInv pm) : PMInv (applyOp pm op) := by
  cases op with
  | register node => exact inv_register pm node h
  | connect s so t ti ok => exact inv_connect pm s so t ti ok h
  | disconnect cid ok => exact inv_disconnect pm cid ok h
  | disconnectAll nodeId ok => exact inv_disconnectAll pm nodeId ok h
  | unregister nodeId ok => exact inv_unregister pm nodeId ok h
  | clear ok => exact inv_clear pm ok h

/-- Every reachable state satisfies the invariant. -/
theorem runOps_inv (config : PatchManagerConfig) (ops : List Op) :
    PMInv (runOps config ops) := by
  unfold runOps
  have hbase : PMInv (mkPatchManager config) := by
    constructor
    · exact List.Pairwise.nil
    · intro c hc
      cases hc
  generalize mkPatchManager config = pm0 at hbase ⊢
  induction ops generalizing pm0 with
  | nil => exact hbase
  | cons op ops ih =>
    rw [List.foldl_cons]
    exact ih _ (applyOp_inv pm0 op hbase)

/-- Counterexample for C1 as stated: in the reachable state `pmCycle1`
(register A, register B, connect A→B), the input `B.input` has a live
connection, yet a `connect` proposing the unregistered source id `ghost`
for that occupied input fails with `NodeNotFoundError` naming the source
— not with `InputAlreadyConnectedError` — because the source-existence
check precedes the occupied-input check. (The ledger is still left
unchanged.) -/
theorem occupied_input_unregistered_source_counterexample :
    (pmCycle1.findConnectionToInput idB inName).isSome ∧
    pmCycle1.connect idGhost outName idB inName true =
      (.error (.sourceNotFound idGhost), pmCycle1) :=
  ⟨rfl, rfl⟩

/-- C1 as amended. For every operation sequence: (1) the reachable state
satisfies the single-producer-per-input invariant — no two ledger entries
target the same (node, input) pair; and (2) whenever some input already
has a live connection, a `connect` aiming at it whose proposed source id
is registered always fails with `InputAlreadyConnectedError` and leaves
the state (in particular the ledger) unchanged, regardless of which
registered source and output are proposed. (An unregistered source id
instead fails earlier with `NodeNotFoundError`, see the
counterexample.) -/
theorem single_producer_invariant (config : PatchManagerConfig) (ops : List Op) :
    AtMostOnePerInput (runOps config ops).connections ∧
    (∀ s so t ti ok c,
      (lookupNode (runOps config ops).nodes s).isSome →
      (runOps config ops).findConnectionToInput t ti = some c →
      (runOps config ops).connect s so t ti ok =
        (.error (.inputAlreadyConnected ti t), runOps config ops)) := by
  have hinv := runOps_inv config ops
  refine ⟨hinv.1, ?_⟩
  intro s so t ti ok c hs hocc
  have hcmem : c ∈ (runOps config ops).connections := List.mem_of_find?_eq_some hocc
  have hpred := List.find?_some hocc
  have hct : c.targetNodeId = t := by
    rw [Bool.and_eq_true] at hpred
    simpa using hpred.1
  have htS : (lookupNode (runOps config ops).nodes t).isSome := by
    have := (hinv.2 c hcmem).2
    rwa [hct] at this
  obtain ⟨sN, hsN⟩ := Option.isSome_iff_exists.mp hs
  obtain ⟨tN, htN⟩ := Option.isSome_iff_exists.mp htS
  simp only [PatchManager.connect, hsN, htN, hocc]

/-- The trace behind the witness: register A and B, connect A→B. -/
def opsW : List Op :=
  [Op.register nodeA, Op.register nodeB, Op.connect idA outName idB inName true]

/-- Witness for C1-as-amended on the concrete trace `opsW`: the invariant
holds, and a second connect onto the occupied `B.input` from the
registered source A fails with `InputAlreadyConnectedError`, leaving the
state unchanged. -/
theorem single_producer_invariant_witness :
    AtMostOnePerInput (runOps { maxConnections := none } opsW).connections ∧
    (runOps { maxConnections := none } opsW).connect idA outName idB inName true =
      (.error (.inputAlreadyConnected inName idB), runOps { maxConnections := none } opsW) :=
  ⟨(single_producer_invariant { maxConnections := none } opsW).1,
   (single_producer_invariant { maxConnections := none } opsW).2 idA outName idB inName
     true cAB (by decide) (by decide)⟩

/-! ### C3 — completeness of the cycle search -/

/-- Number of ledger edges whose target is already visited: the measure
showing the search fuel never runs out. -/
def kvis (conns : List PatchConnection) (v : List String) : Nat :=
  conns.countP (fun c => decide (c.targetNodeId ∈ v))

/-- `kvis` is monotone in the visited set. -/
theorem kvis_mono (conns : List PatchConnection) {v v' : List String} (hsub : v ⊆ v') :
    kvis conns v ≤ kvis conns v' :=
  List.countP_mono_left (fun x _ hx => by
    simp only [decide_eq_true_eq] at hx ⊢
    exact hsub hx)

/-- Visiting the target of some un-visited edge strictly grows `kvis`. -/
theorem kvis_insert (v : List String) (w : String) (hw : w ∉ v) :
    ∀ conns : List PatchConnection, ∀ c0 ∈ conns, c0.targetNodeId = w →
      kvis conns v + 1 ≤ kvis conns (w :: v) := by
  intro conns
  induction conns with
  | nil =>
    intro c0 hc0 _
    exact absurd hc0 (List.not_mem_nil c0)
  | cons a l ih =>
    intro c0 hc0 htgt
    show List.countP _ (a :: l) + 1 ≤ List.countP _ (a :: l)
    rw [List.countP_cons, List.countP_cons]
    have htail : List.countP (fun c => decide (c.targetNodeId ∈ v)) l ≤
        List.countP (fun c => decide (c.targetNodeId ∈ w :: v)) l :=
      List.countP_mono_left (fun x _ hx => by
        simp only [decide_eq_true_eq] at hx ⊢
        exact List.mem_cons_of_mem _ hx)
    have hhead : (if decide (a.targetNodeId ∈ v) = true then 1 else 0) ≤
        (if decide (a.targetNodeId ∈ w :: v) = true then 1 else 0) := by
      by_cases hav : a.targetNodeId ∈ v
      · simp [hav]
      · simp [hav]
    rcases List.mem_cons.mp hc0 with h | h
    · have h1 : (decide (a.targetNodeId ∈ v)) = false := by
        rw [← h]
        simp [htgt, hw]
      have h2 : (decide (a.targetNodeId ∈ w :: v)) = true := by
        rw [← h]
        simp [htgt]
      rw [h1, h2]
      have e1 : (if (false : Bool) = true then 1 else 0) = 0 := rfl
      have e2 : (if (true : Bool) = true then 1 else 0) = 1 := rfl
      rw [e1, e2]
      omega
    · have hstep := ih c0 h htgt
      show _ + _ + 1 ≤ _ + _
      have hstep' : List.countP (fun c => decide (c.targetNodeId ∈ v)) l + 1 ≤
          List.countP (fun c => decide (c.targetNodeId ∈ w :: v)) l := hstep
      omega

/-- False-result closure for the inner loop: if the whole loop fails, the
final visited set contains the initial one and every child target, is
closed under outgoing edges away from the initial set, and gained no node
equal to the search target. Parametrised by the same property of the
one-node search at the current fuel. -/
theorem searchChildren_false (conns : List PatchConnection) (target : String) (fuel : Nat)
    (ihf : ∀ current v res,
      hasPathAux conns target fuel current v = res → res.1 = false →
      conns.length + 2 ≤ fuel + kvis conns (current :: v) →
      v ⊆ res.2 ∧ current ∈ res.2 ∧
      (∀ x ∈ res.2, x ∉ v → ∀ c ∈ conns, c.sourceNodeId = x → c.targetNodeId ∈ res.2) ∧
      (∀ x ∈ res.2, x ∈ v ∨ x ≠ target)) :
    ∀ l, (∀ c ∈ l, c ∈ conns) → ∀ v res,
      conns.length + 1 ≤ fuel + kvis conns v →
      searchChildren (hasPathAux conns target fuel) l v = res → res.1 = false →
      v ⊆ res.2 ∧ (∀ c ∈ l, c.targetNodeId ∈ res.2) ∧
      (∀ x ∈ res.2, x ∉ v → ∀ c ∈ conns, c.sourceNodeId = x → c.targetNodeId ∈ res.2) ∧
      (∀ x ∈ res.2, x ∈ v ∨ x ≠ target) := by
  intro l
  induction l with
  | nil =>
    intro _ v res _ heq _
    simp only [searchChildren] at heq
    cases heq
    refine ⟨fun x hx => hx, fun c hc => absurd hc (List.not_mem_nil c), ?_, ?_⟩
    · intro x hx hxv
      exact (hxv hx).elim
    · intro x hx
      exact Or.inl hx
  | cons c rest ih =>
    intro hl v res hk heq hfalse
    have hlrest : ∀ x ∈ rest, x ∈ conns := fun x hx => hl x (List.mem_cons_of_mem _ hx)
    have hcconns : c ∈ conns := hl c (List.mem_cons_self _ _)
    have hfpos : 1 ≤ fuel := by
      have hle : kvis conns v ≤ conns.length := List.countP_le_length _
      omega
    simp only [searchChildren] at heq
    cases hb : (hasPathAux conns target fuel c.targetNodeId v).1 with
    | true =>
      rw [hb] at heq
      simp only [if_pos rfl] at heq
      have hres1 : res.1 = true := by
        rw [← heq]
        exact hb
      rw [hres1] at hfalse
      exact Bool.noConfusion hfalse
    | false =>
      rw [hb] at heq
      simp only [Bool.false_eq_true, if_false] at heq
      by_cases hcv : c.targetNodeId ∈ v
      · obtain ⟨f', rfl⟩ : ∃ f', fuel = f' + 1 := ⟨fuel - 1, by omega⟩
        have hct' : c.targetNodeId ≠ target := by
          intro h
          have htrue : (hasPathAux conns target (f' + 1) c.targetNodeId v).1 = true := by
            simp [hasPathAux, h]
          rw [htrue] at hb
          exact Bool.noConfusion hb
        have hrv : hasPathAux conns target (f' + 1) c.targetNodeId v = (false, v) := by
          simp [hasPathAux, hct', hcv]
        rw [hrv] at heq
        obtain ⟨hsub, htgts, hclos, hp4⟩ := ih hlrest v res hk heq hfalse
        refine ⟨hsub, ?_, hclos, hp4⟩
        intro c' hc'
        rcases List.mem_cons.mp hc' with h | h
        · rw [h]
          exact hsub hcv
        · exact htgts c' h
      · have hkc : conns.length + 2 ≤ fuel + kvis conns (c.targetNodeId :: v) := by
          have := kvis_insert v c.targetNodeId hcv conns c hcconns rfl
          omega
        obtain ⟨hsub1, hcin, hclos1, hp41⟩ := ihf c.targetNodeId v
          (hasPathAux conns target fuel c.targetNodeId v) rfl hb hkc
        have hk2 : conns.length + 1 ≤ fuel + kvis conns
            ((hasPathAux conns target fuel c.targetNodeId v).2) := by
          have := kvis_mono conns hsub1
          omega
        obtain ⟨hsub2, htgts2, hclos2, hp42⟩ := ih hlrest _ res hk2 heq hfalse
        refine ⟨fun x hx => hsub2 (hsub1 hx), ?_, ?_, ?_⟩
        · intro c' hc'
          rcases List.mem_cons.mp hc' with h | h
          · rw [h]
            exact hsub2 hcin
          · exact htgts2 c' h
        · intro x hx hxv c'' hc'' hsrc
          by_cases hx1 : x ∈ (hasPathAux conns target fuel c.targetNodeId v).2
          · exact hsub2 (hclos1 x hx1 hxv c'' hc'' hsrc)
          · exact hclos2 x hx hx1 c'' hc'' hsrc
        · intro x hx
          rcases hp42 x hx with h | h
          · rcases hp41 x h with h2 | h2
            · exact Or.inl h2
            · exact Or.inr h2
          · exact Or.inr h

/-- False-result closure for the one-node search: with adequate fuel, a
failed search from `current` yields a visited set containing `current`,
closed under outgoing edges away from the initial set, and free of the
target. -/
theorem hasPathAux_false (conns : List PatchConnection) (target : String) :
    ∀ fuel current v res,
      hasPathAux conns target fuel current v = res → res.1 = false →
      conns.length + 2 ≤ fuel + kvis conns (current :: v) →
      v ⊆ res.2 ∧ current ∈ res.2 ∧
      (∀ x ∈ res.2, x ∉ v → ∀ c ∈ conns, c.sourceNodeId = x → c.targetNodeId ∈ res.2) ∧
      (∀ x ∈ res.2, x ∈ v ∨ x ≠ target) := by
  intro fuel
  induction fuel with
  | zero =>
    intro current v res _ _ hk
    exfalso
    have hle : kvis conns (current :: v) ≤ conns.length := List.countP_le_length _
    omega
  | succ f ihfuel =>
    intro current v res heq hfalse hk
    simp only [hasPathAux] at heq
    by_cases hct : current = target
    · rw [if_pos hct] at heq
      have hres1 : res.1 = true := by
        rw [← heq]
      rw [hres1] at hfalse
      exact Bool.noConfusion hfalse
    · rw [if_neg hct] at heq
      by_cases hcv : current ∈ v
      · rw [if_pos hcv] at heq
        cases heq
        refine ⟨fun x hx => hx, hcv, ?_, ?_⟩
        · intro x hx hxv
          exact (hxv hx).elim
        · intro x hx
          exact Or.inl hx
      · rw [if_neg hcv] at heq
        have hsc := searchChildren_false conns target f ihfuel
          (conns.filter (fun c => c.sourceNodeId == current))
          (fun c hc => List.mem_of_mem_filter hc)
          (current :: v) res (by omega) heq hfalse
        obtain ⟨hsub, htgts, hclos, hp4⟩ := hsc
        refine ⟨fun x hx => hsub (List.mem_cons_of_mem _ hx),
          hsub (List.mem_cons_self _ _), ?_, ?_⟩
        · intro x hx hxv c hc hsrc
          by_cases hxc : x = current
          · subst hxc
            exact htgts c (List.mem_filter.mpr ⟨hc, by simp [hsrc]⟩)
          · refine hclos x hx ?_ c hc hsrc
            intro hmem
            rcases List.mem_cons.mp hmem with h | h
            · exact hxc h
            · exact hxv h
        · intro x hx
          rcases hp4 x hx with hxm | hne
          · rcases List.mem_cons.mp hxm with h | h
            · right
              rw [h]
              exact hct
            · left
              exact h
          · right
            exact hne

/-- Directed reachability over the connection ledger (reflexive,
following edges source → target). -/
inductive Reaches (conns : List PatchConnection) : String → String → Prop where
  | refl (a : String) : Reaches conns a a
  | step {a b : String} (c : PatchConnection) (hc : c ∈ conns) (ha : c.sourceNodeId = a)
      (h : Reaches conns c.targetNodeId b) : Reaches conns a b

/-- A set closed under outgoing edges absorbs every reachable node. -/
theorem reaches_closed {conns : List PatchConnection} {V : List String}
    (hclos : ∀ x ∈ V, ∀ c ∈ conns, c.sourceNodeId = x → c.targetNodeId ∈ V) :
    ∀ {a b : String}, Reaches conns a b → a ∈ V → b ∈ V := by
  intro a b h
  induction h with
  | refl a => exact id
  | step c hc ha _ ih =>
    intro haV
    exact ih (hclos _ haV c hc ha)

/-- Completeness of the cycle search: whenever the ledger already
contains a directed path a → b, `wouldCreateCycle(b, a)` reports true. -/
theorem wouldCreateCycle_complete (pm : PatchManager) (a b : String)
    (h : Reaches pm.connections a b) : pm.wouldCreateCycle b a = true := by
  unfold PatchManager.wouldCreateCycle
  by_contra hfal
  have hfalse : (hasPathAux pm.connections b (pm.connections.length + 2) a []).1 = false :=
    Bool.eq_false_iff.mpr hfal
  obtain ⟨_, haV, hclos, hp4⟩ := hasPathAux_false pm.connections b
    (pm.connections.length + 2) a [] _ rfl hfalse (by omega)
  have hclos' : ∀ x ∈ (hasPathAux pm.connections b (pm.connections.length + 2) a []).2,
      ∀ c ∈ pm.connections, c.sourceNodeId = x →
        c.targetNodeId ∈ (hasPathAux pm.connections b (pm.connections.length + 2) a []).2 :=
    fun x hx c hc hs => hclos x hx (List.not_mem_nil x) c hc hs
  have hbV := reaches_closed hclos' h haV
  rcases hp4 b hbV with hmem | hne
  · exact absurd hmem (List.not_mem_nil b)
  · exact hne rfl

/-- C3. In every state where B and A are registered, B has the named
output, A has the named input with no live connection, the ledger is
below the cap, and the ledger already contains a directed path from A to
B, the advisory `canConnect(B, output, A, input)` returns
`canConnect: false` with the feedback-loop reason. `canConnect` is a pure
function of the state (it only reads the registry and ledger), so the
call mutates neither. -/
theorem canConnect_rejects_cycle (pm : PatchManager) (aId bId outputName inputName : String)
    (nb na : EurorackAudioNode)
    (hB : lookupNode pm.nodes bId = some nb)
    (hA : lookupNode pm.nodes aId = some na)
    (hout : (nb.getOutput outputName).isSome)
    (hin : (na.getInput inputName).isSome)
    (hfree : pm.findConnectionToInput aId inputName = none)
    (hcap : pm.connections.length < pm.maxConnections)
    (hpath : Reaches pm.connections aId bId) :
    pm.canConnect bId outputName aId inputName =
      { canConnect := false, reason := some feedbackReason } := by
  have hcyc := wouldCreateCycle_complete pm aId bId hpath
  obtain ⟨o, ho⟩ := Option.isSome_iff_exists.mp hout
  obtain ⟨i, hi⟩ := Option.isSome_iff_exists.mp hin
  simp only [PatchManager.canConnect, hB, hA, ho, hi, hfree]
  rw [if_neg (by simp), if_neg (by simp), if_neg (by simp), if_neg (by omega), if_pos hcyc]

/-- Witness for C3 on `pmCycle1` (single live connection A→B): the
pre-flight check refuses B→A with the feedback-loop reason. -/
theorem canConnect_rejects_cycle_witness :
    pmCycle1.canConnect idB outName idA inName =
      { canConnect := false, reason := some feedbackReason } :=
  canConnect_rejects_cycle pmCycle1 idA idB outName inName _ _ rfl rfl
    (by decide) (by decide) (by decide) (by decide)
    (Reaches.step cAB (by decide) rfl (Reaches.refl idB))
